import Mathlib

/-!
Verification development for the `hl_communication` camera / video metadata
library.  The data model is translated from the protobuf schema
(`camera.proto`): `IntrinsicParameters`, `Pose3D`, `FrameEntry`,
`VideoMetaInformation`, `CameraMetaInformation`.  The operations declared in
`include/hl_communication/utils.h` have no bodies in the available sources,
so each operation is modelled from the specification (its doc comment marks
what is modelled).  Floating point values of the schema are embedded as
exact rationals (every finite float is a rational); the rotation-decoding
functions that need trigonometry live over the reals.  Protobuf `uint64`
timestamps are naturals carried modulo `2 ^ 64` where overflow matters.

Source-identifier messages (`RobotIdentifier`, `RobotCameraIdentifier`,
`VideoSourceID`) are not modelled: no verified claim mentions them, and the
spec excludes identifier ordering from the core.
-/

namespace HlCommunication

/-! ## Data model (from `camera.proto`) -/

/-- From `camera.proto`: intrinsic parameters of a camera.  `focal_x`,
`focal_y` and the distortion coefficients are floats (embedded as `ℚ`);
centers and image size are `uint32` (embedded as `ℕ`). -/
structure IntrinsicParameters where
  focal_x : ℚ
  focal_y : ℚ
  center_x : ℕ
  center_y : ℕ
  img_width : ℕ
  img_height : ℕ
  distortion : List ℚ
deriving DecidableEq, Repr

/-- From `camera.proto`: a pose, with rotation encoded as a repeated float
field (3 values: Rodrigues rotation vector; 4 values: quaternion
`qw, qx, qy, qz`) and translation as a repeated float field (3 values).
Parameterised by the scalar type: frames store exact `Pose3D ℚ`, while the
encoding of a real rigid transform produces values over `ℝ`. -/
structure Pose3D (α : Type) where
  rotation : List α
  translation : List α
deriving DecidableEq, Repr

/-- From `camera.proto`: acquisition condition of a frame. -/
inductive FrameStatus where
  | unknown_frame_status
  | static
  | moving
  | shaking
deriving DecidableEq, Repr

/-- From `camera.proto`: one entry of a video's frame sequence.  `utc_ts`
and `monotonic_ts` are optional `uint64` microsecond timestamps, `pose` is
an optional per-frame override of the video default pose. -/
structure FrameEntry where
  utc_ts : Option ℕ
  monotonic_ts : Option ℕ
  pose : Option (Pose3D ℚ)
  status : FrameStatus
deriving DecidableEq, Repr

instance : Inhabited FrameEntry :=
  ⟨⟨none, none, none, FrameStatus.unknown_frame_status⟩⟩

/-- From `camera.proto`: meta information of a whole video.
`default_pose` and `time_offset` are optional in the schema; proto2 getters
return the default instance (empty pose, offset 0) when the field is unset,
so they are embedded as plain fields whose value for an unset field is that
default.  The `source_id` field is not modelled (no claim mentions it). -/
structure VideoMetaInformation where
  camera_parameters : Option IntrinsicParameters
  default_pose : Pose3D ℚ
  frames : List FrameEntry
  time_offset : Int
deriving DecidableEq, Repr

/-- Errors of the utils layer, from spec §7: `MalformedPoseError` (rotation
length not 3 or 4), `MissingTimestampError` (requested clock field unset on
an accessed frame) and `OutOfRangeError` (frame index outside
`[0, frameCount)`). -/
inductive UtilsError where
  | malformedPose
  | missingTimestamp
  | outOfRange
deriving DecidableEq, Repr

/-! ## Exact linear algebra for the projector

The projector consumes an extrinsic pose in its dense form (spec glossary:
a rigid transform from field referential to camera referential), with
entries kept as exact rationals. -/

/-- A 2D image point with exact coordinates. -/
structure Vec2q where
  x : ℚ
  y : ℚ
deriving DecidableEq, Repr

/-- A 3D point with exact coordinates. -/
structure Vec3q where
  x : ℚ
  y : ℚ
  z : ℚ
deriving DecidableEq, Repr

/-- A 3x3 matrix with exact entries, row major. -/
structure Mat3q where
  m00 : ℚ
  m01 : ℚ
  m02 : ℚ
  m10 : ℚ
  m11 : ℚ
  m12 : ℚ
  m20 : ℚ
  m21 : ℚ
  m22 : ℚ
deriving DecidableEq, Repr

/-- Matrix-vector product. -/
def Mat3q.apply (m : Mat3q) (v : Vec3q) : Vec3q :=
  ⟨m.m00 * v.x + m.m01 * v.y + m.m02 * v.z,
   m.m10 * v.x + m.m11 * v.y + m.m12 * v.z,
   m.m20 * v.x + m.m21 * v.y + m.m22 * v.z⟩

/-- Dense rigid transform: rotation matrix plus translation vector, the
form of an extrinsic pose the projector consumes. -/
structure RigidTransformQ where
  rotation : Mat3q
  translation : Vec3q
deriving DecidableEq, Repr

/-- From `camera.proto`: the reduced single-frame form, intrinsic
parameters plus one default pose.  Both fields are optional in the schema
but required by every projection, so the embedding takes them as present;
the pose is carried in its dense rigid-transform form (decoding the
compact `Pose3D` record into that form is `getAffineFromProtobuf`
below). -/
structure CameraMetaInformation where
  camera_parameters : IntrinsicParameters
  pose : RigidTransformQ
deriving DecidableEq, Repr

/-! ## Clock reconciliation (spec §4.4)

Timestamps are `uint64` microsecond counts; the per-video offset is a
signed `int64`.  Arithmetic on `uint64` wraps modulo `2 ^ 64`, which the
embedding makes explicit. -/

/-- Modelled from the spec: `monotonicToUTC(ts, offset) = ts + offset`,
on `uint64` timestamps (result reduced modulo `2 ^ 64`). -/
def monotonicToUTC (ts : ℕ) (offset : Int) : ℕ :=
  ((((ts : Int) + offset) % (2 ^ 64))).toNat

/-- Modelled from the spec: `utcToMonotonic(ts, offset) = ts − offset`,
on `uint64` timestamps (result reduced modulo `2 ^ 64`). -/
def utcToMonotonic (ts : ℕ) (offset : Int) : ℕ :=
  ((((ts : Int) - offset) % (2 ^ 64))).toNat

/-! ## Temporal frame index (spec §4.5, header declarations
`getTS`, `getIndex`, `getTimeStamp`) -/

/-- Modelled from the spec (header: "Return the time stamp of the given
frame, utc or monotonic type is chosen depending on utc flag").  Proto2
getter semantics: an unset optional `uint64` field reads as its default 0. -/
def getTS (entry : FrameEntry) (utc : Bool) : ℕ :=
  if utc then entry.utc_ts.getD 0 else entry.monotonic_ts.getD 0

/-- Timestamp of frame `i` of the video in the chosen clock base: the
sequence over which the frame index searches (0 beyond the end of the
frame list, where the default `FrameEntry` has no timestamp set). -/
def frameTS (v : VideoMetaInformation) (utc : Bool) (i : ℕ) : ℕ :=
  getTS (v.frames.getD i default) utc

/-- Modelled from the spec: the binary-search loop of `indexAtOrBefore`
(`getIndex`).  `searchFirstAbove f ts fuel lo hi` narrows `[lo, hi)` by
halving until it is empty and returns the final `lo`: under a sorted `f`
this is the first index whose timestamp exceeds `ts` (or `hi` if none).
The loop is embedded with an explicit iteration budget `fuel`; a budget of
`hi - lo` is enough for the halving loop to terminate, so the budget never
runs out on the calls the library makes. -/
def searchFirstAbove (f : ℕ → ℕ) (ts : ℕ) : ℕ → ℕ → ℕ → ℕ
  | 0, lo, _ => lo
  | fuel + 1, lo, hi =>
    if lo < hi then
      if f ((lo + hi) / 2) ≤ ts then
        searchFirstAbove f ts fuel ((lo + hi) / 2 + 1) hi
      else
        searchFirstAbove f ts fuel lo ((lo + hi) / 2)
    else lo

/-- Modelled from the spec (header: "Returns the index of the frame
corresponding to the given time_stamp.  If no frame has the given
time_stamp, return the frame previous to given time_stamp.  If there is no
frame before given time_stamp, returns -1"), implemented as the binary
search the spec prescribes: one past the last frame at or before the
timestamp, minus one. -/
def getIndex (v : VideoMetaInformation) (time_stamp : ℕ) (utc : Bool) : Int :=
  (searchFirstAbove (frameTS v utc) time_stamp v.frames.length 0
    v.frames.length : Int) - 1

/-- The requested timestamp field of a frame in the chosen clock base,
`none` when that optional field is unset. -/
def chosenTS (entry : FrameEntry) (utc : Bool) : Option ℕ :=
  if utc then entry.utc_ts else entry.monotonic_ts

/-- Modelled from the spec (header: "Returns the time stamp of the frame at
given index.  If information is not available throw out_of_range"; spec §4.5
and §7 distinguish the two failure kinds: `OutOfRangeError` for an index
outside `[0, frameCount)` and `MissingTimestampError` for an unset
timestamp field on the accessed frame). -/
def getTimeStamp (v : VideoMetaInformation) (index : Int) (utc : Bool) :
    Except UtilsError ℕ :=
  if 0 ≤ index ∧ index.toNat < v.frames.length then
    match chosenTS (v.frames.getD index.toNat default) utc with
    | some ts => Except.ok ts
    | none => Except.error UtilsError.missingTimestamp
  else Except.error UtilsError.outOfRange

/-- Modelled from the spec: `poseAt(video, timestamp, useUTC)` resolves
`i = indexAtOrBefore(...)`; if `i < 0` or `frames[i]` lacks a pose
override, falls back to `video.default_pose`; otherwise returns
`frames[i].pose`.  No interpolation is performed. -/
def poseAt (v : VideoMetaInformation) (time_stamp : ℕ) (utc : Bool) :
    Pose3D ℚ :=
  if 0 ≤ getIndex v time_stamp utc ∧
      (getIndex v time_stamp utc).toNat < v.frames.length then
    match (v.frames.getD (getIndex v time_stamp utc).toNat default).pose with
    | some p => p
    | none => v.default_pose
  else v.default_pose

/-! ## Intrinsic model (spec §4.2, header declarations `intrinsicToCV`,
`cvToIntrinsic`) -/

/-- Nearest unsigned integer of a rational (ties round up), the rounding
`cvToIntrinsic` applies to the principal point. -/
def roundToNat (q : ℚ) : ℕ :=
  (⌊q + 1 / 2⌋).toNat

/-- Modelled from the spec: `toCameraMatrix` (`intrinsicToCV`) produces the
camera matrix `[[focal_x, 0, center_x], [0, focal_y, center_y], [0, 0, 1]]`,
the distortion vector and the image size. -/
def intrinsicToCV (camera_parameters : IntrinsicParameters) :
    Mat3q × List ℚ × (ℕ × ℕ) :=
  (⟨camera_parameters.focal_x, 0, (camera_parameters.center_x : ℚ),
    0, camera_parameters.focal_y, (camera_parameters.center_y : ℚ),
    0, 0, 1⟩,
   camera_parameters.distortion,
   (camera_parameters.img_width, camera_parameters.img_height))

/-- Modelled from the spec: `fromCameraMatrix` (`cvToIntrinsic`) reads the
focal lengths and principal point back off the camera matrix, rounding the
centers to the nearest unsigned integer (sub-pixel precision loss is
accepted). -/
def cvToIntrinsic (camera_matrix : Mat3q) (distortion_coefficients : List ℚ)
    (img_size : ℕ × ℕ) : IntrinsicParameters :=
  { focal_x := camera_matrix.m00
    focal_y := camera_matrix.m11
    center_x := roundToNat camera_matrix.m02
    center_y := roundToNat camera_matrix.m12
    img_width := img_size.1
    img_height := img_size.2
    distortion := distortion_coefficients }

/-! ## Projector (spec §4.3, header declarations `fieldToCamera`,
`fieldToImg`) -/

/-- Modelled from the spec: `fieldToCamera` applies the rigid transform
(rotation then translation) to map a field point into camera-frame
coordinates; a point faces the camera iff its camera-frame `z` is
positive. -/
def fieldToCamera (pos_in_field : Vec3q) (pose : RigidTransformQ) : Vec3q :=
  ⟨(pose.rotation.apply pos_in_field).x + pose.translation.x,
   (pose.rotation.apply pos_in_field).y + pose.translation.y,
   (pose.rotation.apply pos_in_field).z + pose.translation.z⟩

/-- Modelled from the spec: the pinhole + polynomial-distortion image of
normalized camera coordinates — radial and tangential polynomial in the
OpenCV coefficient ordering `k1, k2, p1, p2, k3` (coefficients beyond the
stored list read as 0, so lengths 0, 4 and 5 are all accepted and nothing
is hard-coded to exactly 5), then focal scaling and principal-point
offset. -/
def distort (camera_parameters : IntrinsicParameters) (xn yn : ℚ) : Vec2q :=
  ⟨camera_parameters.focal_x *
      (xn * (1 + camera_parameters.distortion.getD 0 0 * (xn ^ 2 + yn ^ 2) +
          camera_parameters.distortion.getD 1 0 * (xn ^ 2 + yn ^ 2) ^ 2 +
          camera_parameters.distortion.getD 4 0 * (xn ^ 2 + yn ^ 2) ^ 3) +
        2 * camera_parameters.distortion.getD 2 0 * xn * yn +
        camera_parameters.distortion.getD 3 0 *
          ((xn ^ 2 + yn ^ 2) + 2 * xn ^ 2)) +
      (camera_parameters.center_x : ℚ),
   camera_parameters.focal_y *
      (yn * (1 + camera_parameters.distortion.getD 0 0 * (xn ^ 2 + yn ^ 2) +
          camera_parameters.distortion.getD 1 0 * (xn ^ 2 + yn ^ 2) ^ 2 +
          camera_parameters.distortion.getD 4 0 * (xn ^ 2 + yn ^ 2) ^ 3) +
        camera_parameters.distortion.getD 2 0 *
          ((xn ^ 2 + yn ^ 2) + 2 * yn ^ 2) +
        2 * camera_parameters.distortion.getD 3 0 * xn * yn) +
      (camera_parameters.center_y : ℚ)⟩

/-- Camera-frame point to pixel: normalization by the camera-frame depth,
then the distortion model.  The normalization divides by `z` whatever its
sign, which for a behind-camera point yields the pixel of the symmetric
point reflected through the optical center. -/
def project (camera_parameters : IntrinsicParameters) (p : Vec3q) : Vec2q :=
  distort camera_parameters (p.x / p.z) (p.y / p.z)

/-- Does a pixel lie inside `[0, img_width) × [0, img_height)`? -/
def insideImg (camera_parameters : IntrinsicParameters) (p : Vec2q) : Bool :=
  decide (0 ≤ p.x) && decide (p.x < (camera_parameters.img_width : ℚ)) &&
    decide (0 ≤ p.y) && decide (p.y < (camera_parameters.img_height : ℚ))

/-- Modelled from the spec: the plain overload
`cv::Point2f fieldToImg(pos_in_field, camera_information)`: the projected
pixel of a field point. -/
def fieldToImg (pos_in_field : Vec3q)
    (camera_information : CameraMetaInformation) : Vec2q :=
  project camera_information.camera_parameters
    (fieldToCamera pos_in_field camera_information.pose)

/-- Modelled from the spec: the boolean overload
`bool fieldToImg(pos_in_field, camera_information, img_pos)`: writes the
projected pixel into `img_pos` (for a point behind the camera the
underlying model still yields the pixel of the symmetric point reflected
through the optical center, kept rather than replaced by a sentinel) and
returns whether that position is valid: camera-frame depth positive and
pixel inside the image. -/
def fieldToImgValid (pos_in_field : Vec3q)
    (camera_information : CameraMetaInformation) : Vec2q × Bool :=
  (distort camera_information.camera_parameters
     ((fieldToCamera pos_in_field camera_information.pose).x /
       (fieldToCamera pos_in_field camera_information.pose).z)
     ((fieldToCamera pos_in_field camera_information.pose).y /
       (fieldToCamera pos_in_field camera_information.pose).z),
   decide (0 < (fieldToCamera pos_in_field camera_information.pose).z) &&
     insideImg camera_information.camera_parameters
       (distort camera_information.camera_parameters
         ((fieldToCamera pos_in_field camera_information.pose).x /
           (fieldToCamera pos_in_field camera_information.pose).z)
         ((fieldToCamera pos_in_field camera_information.pose).y /
           (fieldToCamera pos_in_field camera_information.pose).z)))

/-! ## Pose representation (spec §4.1, header declarations
`getAffineFromProtobuf`, `setProtobufFromAffine`)

The decoded rotation matrices involve trigonometric functions, so this part
of the embedding lives over `ℝ`. -/

/-- A 3D vector over the reals. -/
structure Vec3r where
  x : ℝ
  y : ℝ
  z : ℝ

/-- A 3x3 real matrix, row major. -/
structure Mat3r where
  m00 : ℝ
  m01 : ℝ
  m02 : ℝ
  m10 : ℝ
  m11 : ℝ
  m12 : ℝ
  m20 : ℝ
  m21 : ℝ
  m22 : ℝ

/-- Modelled from the spec: the Rodrigues exponential map, decoding a
3-element rotation vector (direction = axis, magnitude = angle) into a
rotation matrix `cos θ · I + sin θ · K + (1 − cos θ) · u uᵀ` with `u` the
normalized axis and `K` its cross-product matrix (the zero vector maps to
the identity, real division by zero being zero). -/
noncomputable def rodrigues (rx ry rz : ℚ) : Mat3r :=
  let x : ℝ := (rx : ℝ)
  let y : ℝ := (ry : ℝ)
  let z : ℝ := (rz : ℝ)
  let t := Real.sqrt (x ^ 2 + y ^ 2 + z ^ 2)
  let ux := x / t
  let uy := y / t
  let uz := z / t
  let c := Real.cos t
  let s := Real.sin t
  ⟨c + ux ^ 2 * (1 - c), ux * uy * (1 - c) - uz * s,
    ux * uz * (1 - c) + uy * s,
   uy * ux * (1 - c) + uz * s, c + uy ^ 2 * (1 - c),
    uy * uz * (1 - c) - ux * s,
   uz * ux * (1 - c) - uy * s, uz * uy * (1 - c) + ux * s,
    c + uz ^ 2 * (1 - c)⟩

/-- Modelled from the spec: quaternion-to-matrix conversion in the order
`qw, qx, qy, qz` (the standard rotation matrix of a unit quaternion). -/
noncomputable def quatToMatrix (qw qx qy qz : ℚ) : Mat3r :=
  let w : ℝ := (qw : ℝ)
  let x : ℝ := (qx : ℝ)
  let y : ℝ := (qy : ℝ)
  let z : ℝ := (qz : ℝ)
  ⟨1 - 2 * (y ^ 2 + z ^ 2), 2 * (x * y - z * w), 2 * (x * z + y * w),
   2 * (x * y + z * w), 1 - 2 * (x ^ 2 + z ^ 2), 2 * (y * z - x * w),
   2 * (x * z - y * w), 2 * (y * z + x * w), 1 - 2 * (x ^ 2 + y ^ 2)⟩

/-- The translation copied out of a `Pose3D` record (the spec's invariant
makes the field exactly 3 elements; components beyond the stored list read
as 0). -/
noncomputable def protoTranslation (pose : Pose3D ℚ) : Vec3r :=
  ⟨((pose.translation.getD 0 0 : ℚ) : ℝ),
   ((pose.translation.getD 1 0 : ℚ) : ℝ),
   ((pose.translation.getD 2 0 : ℚ) : ℝ)⟩

/-- Modelled from the spec: `toRigidTransform` (`getAffineFromProtobuf`)
decodes the rotation by the Rodrigues exponential map when the rotation
field has exactly 3 elements and by quaternion-to-matrix conversion
(order `qw, qx, qy, qz`) when it has exactly 4, copies the translation,
and fails with `MalformedPoseError` for any other rotation length. -/
noncomputable def getAffineFromProtobuf (pose : Pose3D ℚ) :
    Except UtilsError (Mat3r × Vec3r) :=
  match pose.rotation with
  | [rx, ry, rz] => Except.ok (rodrigues rx ry rz, protoTranslation pose)
  | [qw, qx, qy, qz] =>
    Except.ok (quatToMatrix qw qx qy qz, protoTranslation pose)
  | _ => Except.error UtilsError.malformedPose

/-- The Rodrigues rotation vector of a rotation matrix: axis read off the
antisymmetric part, angle from the trace. -/
noncomputable def matrixToRodrigues (m : Mat3r) : Vec3r :=
  let angle := Real.arccos ((m.m00 + m.m11 + m.m22 - 1) / 2)
  let s := 2 * Real.sin angle
  ⟨angle * (m.m21 - m.m12) / s, angle * (m.m02 - m.m20) / s,
   angle * (m.m10 - m.m01) / s⟩

/-- Modelled from the spec: `fromRigidTransform` (`setProtobufFromAffine`)
always encodes the rotation as the 3-element Rodrigues rotation vector, the
canonical compact form (the interface offers no quaternion-request
parameter). -/
noncomputable def setProtobufFromAffine (m : Mat3r) (t : Vec3r) :
    Pose3D ℝ :=
  { rotation := [(matrixToRodrigues m).x, (matrixToRodrigues m).y,
      (matrixToRodrigues m).z]
    translation := [t.x, t.y, t.z] }

/-! ## Fixtures for the witnesses -/

/-- Fixture for C1's witness: three frames with monotonic timestamps
100, 200, 300. -/
def demoVideo : VideoMetaInformation :=
  { camera_parameters := none
    default_pose := ⟨[], []⟩
    frames :=
      [⟨none, some 100, none, FrameStatus.unknown_frame_status⟩,
       ⟨none, some 200, none, FrameStatus.unknown_frame_status⟩,
       ⟨none, some 300, none, FrameStatus.unknown_frame_status⟩]
    time_offset := 0 }

/-- Fixture for C9's witness: a video with an empty frame sequence. -/
def emptyVideo : VideoMetaInformation :=
  { camera_parameters := none
    default_pose := ⟨[], []⟩
    frames := []
    time_offset := 0 }

/-- Fixture for C7's witness: one frame with a UTC timestamp but no
monotonic timestamp. -/
def utcOnlyVideo : VideoMetaInformation :=
  { camera_parameters := none
    default_pose := ⟨[], []⟩
    frames := [⟨some 500, none, none, FrameStatus.unknown_frame_status⟩]
    time_offset := 0 }

/-- Override pose of the first frame of the C3 fixture. -/
def demoPose : Pose3D ℚ := ⟨[0, 0, 0], [1, 2, 3]⟩

/-- Fixture for C3's witness: frame 0 (timestamp 100) carries a pose
override, frame 1 (timestamp 200) does not. -/
def twoFrameVideo : VideoMetaInformation :=
  { camera_parameters := none
    default_pose := ⟨[0, 0, 0], [0, 0, 0]⟩
    frames :=
      [⟨none, some 100, some demoPose, FrameStatus.unknown_frame_status⟩,
       ⟨none, some 200, none, FrameStatus.unknown_frame_status⟩]
    time_offset := 0 }

/-- Fixture intrinsics for the projector witnesses: 640x480 image,
principal point (320, 240), no distortion. -/
def projIntrinsics : IntrinsicParameters := ⟨100, 100, 320, 240, 640, 480, []⟩

/-- Fixture camera for the projector witnesses: identity extrinsic pose. -/
def projCamera : CameraMetaInformation :=
  ⟨projIntrinsics, ⟨⟨1, 0, 0, 0, 1, 0, 0, 0, 1⟩, ⟨0, 0, 0⟩⟩⟩

/-- A field point behind the fixture camera (camera-frame depth -5). -/
def behindPoint : Vec3q := ⟨1, 2, -5⟩

/-- Fixture intrinsics for C6's witness: fractional focal lengths and a
distortion vector of length 2. -/
def cvIntrinsics : IntrinsicParameters :=
  ⟨901 / 2, 7 / 3, 320, 240, 640, 480, [1 / 10, -1 / 20]⟩

/-! ## Theorems -/

/-- C4: for every `int64` offset `O` and `uint64` timestamp `T`,
`utcToMonotonic (monotonicToUTC T O) O = T` exactly: the clock translation
round-trips with pure integer arithmetic. -/
theorem clock_offset_roundtrip (T : ℕ) (O : Int) (hT : T < 2 ^ 64) :
    utcToMonotonic (monotonicToUTC T O) O = T := by
  unfold utcToMonotonic monotonicToUTC
  omega

/-- Witness for C4 at a concrete timestamp and a negative offset. -/
theorem clock_offset_roundtrip_witness :
    1000 < 2 ^ 64 ∧ utcToMonotonic (monotonicToUTC 1000 (-300)) (-300) = 1000 :=
  ⟨by norm_num, clock_offset_roundtrip 1000 (-300) (by norm_num)⟩

/-- The search result never leaves `[lo, hi]` (given `lo ≤ hi`). -/
theorem searchFirstAbove_bounds (f : ℕ → ℕ) (ts : ℕ) :
    ∀ fuel lo hi, lo ≤ hi →
      lo ≤ searchFirstAbove f ts fuel lo hi ∧
      searchFirstAbove f ts fuel lo hi ≤ hi := by
  intro fuel
  induction fuel with
  | zero =>
    intro lo hi h
    rw [searchFirstAbove]
    exact ⟨le_refl lo, h⟩
  | succ fuel ih =>
    intro lo hi h
    by_cases hlt : lo < hi
    · rw [searchFirstAbove, if_pos hlt]
      by_cases hle : f ((lo + hi) / 2) ≤ ts
      · rw [if_pos hle]
        have := ih ((lo + hi) / 2 + 1) hi (by omega)
        omega
      · rw [if_neg hle]
        have := ih lo ((lo + hi) / 2) (by omega)
        omega
    · rw [searchFirstAbove, if_neg hlt]
      omega

/-- Binary-search invariant: with the chosen timestamp sequence sorted on
`[0, n)`, enough fuel, and the outer-range preconditions, every index below
the result has timestamp at or below `ts` and every index from the result
up to `n` has timestamp above `ts`. -/
theorem searchFirstAbove_spec (f : ℕ → ℕ) (ts n : ℕ)
    (mono : ∀ j, j < n → ∀ i, i ≤ j → f i ≤ f j) :
    ∀ fuel lo hi, hi - lo ≤ fuel → lo ≤ hi → hi ≤ n →
      (∀ i, i < lo → f i ≤ ts) → (∀ i, hi ≤ i → i < n → ts < f i) →
      (∀ i, i < searchFirstAbove f ts fuel lo hi → f i ≤ ts) ∧
      (∀ i, searchFirstAbove f ts fuel lo hi ≤ i → i < n → ts < f i) := by
  intro fuel
  induction fuel with
  | zero =>
    intro lo hi hf hlh _ h1 h2
    have hE : lo = hi := by omega
    subst hE
    rw [searchFirstAbove]
    exact ⟨h1, fun i hli hin => h2 i hli hin⟩
  | succ fuel ih =>
    intro lo hi hf hlh hhn h1 h2
    by_cases hlt : lo < hi
    · rw [searchFirstAbove, if_pos hlt]
      by_cases hle : f ((lo + hi) / 2) ≤ ts
      · rw [if_pos hle]
        apply ih ((lo + hi) / 2 + 1) hi (by omega) (by omega) hhn
        · intro i hi'
          exact le_trans (mono ((lo + hi) / 2) (by omega) i (by omega)) hle
        · exact h2
      · rw [if_neg hle]
        apply ih lo ((lo + hi) / 2) (by omega) (by omega) (by omega) h1
        intro i hmi hin
        exact lt_of_lt_of_le (lt_of_not_le hle) (mono i hin _ hmi)
    · rw [searchFirstAbove, if_neg hlt]
      have hE : lo = hi := by omega
      subst hE
      exact ⟨h1, fun i hli hin => h2 i hli hin⟩

/-- C1: for a video whose chosen per-frame timestamp sequence is
monotonically non-decreasing, `getIndex` returns the largest frame index
whose timestamp is at or before the queried timestamp, and `-1` when every
frame's timestamp exceeds it. -/
theorem getIndex_atOrBefore (v : VideoMetaInformation) (ts : ℕ) (utc : Bool)
    (mono : ∀ j, j < v.frames.length → ∀ i, i ≤ j →
      frameTS v utc i ≤ frameTS v utc j) :
    (getIndex v ts utc = -1 ∧
      ∀ i, i < v.frames.length → ts < frameTS v utc i) ∨
    (∃ i, i < v.frames.length ∧ getIndex v ts utc = (i : Int) ∧
      frameTS v utc i ≤ ts ∧
      ∀ j, j < v.frames.length → frameTS v utc j ≤ ts → j ≤ i) := by
  have hspec := searchFirstAbove_spec (frameTS v utc) ts v.frames.length mono
    v.frames.length 0 v.frames.length (by omega) (by omega) (le_refl _)
    (by omega) (by omega)
  have hb := searchFirstAbove_bounds (frameTS v utc) ts v.frames.length 0
    v.frames.length (by omega)
  unfold getIndex
  rcases hu : searchFirstAbove (frameTS v utc) ts v.frames.length 0
      v.frames.length with _ | u
  · left
    rw [hu] at hspec
    exact ⟨by norm_num, fun i hi => hspec.2 i (by omega) hi⟩
  · right
    rw [hu] at hspec hb
    refine ⟨u, by omega, by push_cast; ring, hspec.1 u (by omega), ?_⟩
    intro j hj hfj
    by_contra hcon
    exact absurd hfj (not_le_of_lt (hspec.2 j (by omega) hj))

/-- Witness for C1: on the `[100, 200, 300]` fixture the lookups at 250,
50 and 300 return 1, -1 and 2, and the theorem applies at timestamp 250. -/
theorem getIndex_atOrBefore_witness :
    (getIndex demoVideo 250 false = 1 ∧ getIndex demoVideo 50 false = -1 ∧
      getIndex demoVideo 300 false = 2) ∧
    ((getIndex demoVideo 250 false = -1 ∧
        ∀ i, i < demoVideo.frames.length → 250 < frameTS demoVideo false i) ∨
      (∃ i, i < demoVideo.frames.length ∧
        getIndex demoVideo 250 false = (i : Int) ∧
        frameTS demoVideo false i ≤ 250 ∧
        ∀ j, j < demoVideo.frames.length →
          frameTS demoVideo false j ≤ 250 → j ≤ i)) :=
  ⟨by decide, getIndex_atOrBefore demoVideo 250 false (by decide)⟩

/-- C9: on a video with no frames, `getIndex` returns the `-1` sentinel for
every timestamp and both clock bases. -/
theorem getIndex_empty_frames (v : VideoMetaInformation) (ts : ℕ)
    (utc : Bool) (h : v.frames = []) : getIndex v ts utc = -1 := by
  simp [getIndex, h, searchFirstAbove]

/-- Witness for C9 on the empty fixture, in both clock bases. -/
theorem getIndex_empty_frames_witness :
    getIndex emptyVideo 12345 true = -1 ∧ getIndex emptyVideo 0 false = -1 :=
  ⟨getIndex_empty_frames emptyVideo 12345 true rfl,
   getIndex_empty_frames emptyVideo 0 false rfl⟩

/-- C7: `getTimeStamp` returns the chosen timestamp field of the indexed
frame, fails with `OutOfRangeError` for an index outside
`[0, frameCount)`, and fails with `MissingTimestampError` when the
requested field is unset on the accessed frame — never a fabricated
value. -/
theorem getTimeStamp_spec (v : VideoMetaInformation) (index : Int)
    (utc : Bool) :
    ((index < 0 ∨ (v.frames.length : Int) ≤ index) →
      getTimeStamp v index utc = Except.error UtilsError.outOfRange) ∧
    (0 ≤ index → index.toNat < v.frames.length →
      (chosenTS (v.frames.getD index.toNat default) utc = none →
        getTimeStamp v index utc =
          Except.error UtilsError.missingTimestamp) ∧
      (∀ ts, chosenTS (v.frames.getD index.toNat default) utc = some ts →
        getTimeStamp v index utc = Except.ok ts)) := by
  constructor
  · intro hout
    unfold getTimeStamp
    rw [if_neg (by omega)]
  · intro h0 hlen
    unfold getTimeStamp
    rw [if_pos ⟨h0, hlen⟩]
    constructor
    · intro hnone
      rw [hnone]
    · intro ts hts
      rw [hts]

/-- Witness for C7: out-of-range index, unset monotonic field, and a
successful UTC read on the one-frame fixture. -/
theorem getTimeStamp_spec_witness :
    getTimeStamp utcOnlyVideo 5 true = Except.error UtilsError.outOfRange ∧
    getTimeStamp utcOnlyVideo (-1) true =
      Except.error UtilsError.outOfRange ∧
    getTimeStamp utcOnlyVideo 0 false =
      Except.error UtilsError.missingTimestamp ∧
    getTimeStamp utcOnlyVideo 0 true = Except.ok 500 :=
  ⟨(getTimeStamp_spec utcOnlyVideo 5 true).1 (by decide),
   (getTimeStamp_spec utcOnlyVideo (-1) true).1 (by decide),
   ((getTimeStamp_spec utcOnlyVideo 0 false).2 (by decide) (by decide)).1
     rfl,
   ((getTimeStamp_spec utcOnlyVideo 0 true).2 (by decide) (by decide)).2
     500 rfl⟩

/-- `getIndex` always stays below the frame count. -/
theorem getIndex_lt_length (v : VideoMetaInformation) (ts : ℕ)
    (utc : Bool) : getIndex v ts utc < (v.frames.length : Int) := by
  have hb := searchFirstAbove_bounds (frameTS v utc) ts v.frames.length 0
    v.frames.length (by omega)
  unfold getIndex
  omega

/-- C3: `poseAt` returns the video default pose when the resolved index is
negative or the resolved frame carries no pose override, and returns that
frame's own pose whenever the override is set; the result is always read
from the single resolved frame, with no interpolation. -/
theorem poseAt_spec (v : VideoMetaInformation) (ts : ℕ) (utc : Bool) :
    (getIndex v ts utc < 0 → poseAt v ts utc = v.default_pose) ∧
    (∀ i : ℕ, getIndex v ts utc = (i : Int) →
      ((v.frames.getD i default).pose = none →
        poseAt v ts utc = v.default_pose) ∧
      (∀ p, (v.frames.getD i default).pose = some p →
        poseAt v ts utc = p)) := by
  constructor
  · intro hneg
    unfold poseAt
    rw [if_neg (by omega)]
  · intro i hidx
    have hlt := getIndex_lt_length v ts utc
    rw [hidx] at hlt
    have hlen : i < v.frames.length := by exact_mod_cast hlt
    unfold poseAt
    rw [hidx]
    rw [if_pos ⟨Int.natCast_nonneg i, by simpa using hlen⟩]
    simp only [Int.toNat_natCast]
    constructor
    · intro hnone
      rw [hnone]
    · intro p hp
      rw [hp]

/-- Witness for C3: at timestamp 150 the resolved frame 0 has an override
and `poseAt` returns it; at 250 the resolved frame 1 has none and `poseAt`
falls back to the default pose. -/
theorem poseAt_spec_witness :
    poseAt twoFrameVideo 150 false = demoPose ∧
    poseAt twoFrameVideo 250 false = twoFrameVideo.default_pose :=
  ⟨((poseAt_spec twoFrameVideo 150 false).2 0 (by decide)).2 demoPose rfl,
   ((poseAt_spec twoFrameVideo 250 false).2 1 (by decide)).1 rfl⟩

/-- Rounding a rational that is exactly a natural returns that natural. -/
theorem roundToNat_natCast (n : ℕ) : roundToNat (n : ℚ) = n := by
  unfold roundToNat
  have h : ⌊(n : ℚ) + 1 / 2⌋ = (n : ℤ) := by
    rw [Int.floor_eq_iff]
    constructor
    · push_cast
      linarith
    · push_cast
      linarith
  rw [h]
  omega

/-- C6: the camera matrix built by `intrinsicToCV` is
`[[focal_x, 0, center_x], [0, focal_y, center_y], [0, 0, 1]]`, and reading
it back with `cvToIntrinsic` reproduces the focal lengths exactly and the
principal point within half a pixel (the centers are rounded to the
nearest unsigned integer). -/
theorem intrinsic_cv_roundtrip (I : IntrinsicParameters)
    (hw : I.img_width ≠ 0) (hh : I.img_height ≠ 0) :
    (intrinsicToCV I).1 =
      ⟨I.focal_x, 0, (I.center_x : ℚ), 0, I.focal_y, (I.center_y : ℚ),
        0, 0, 1⟩ ∧
    (cvToIntrinsic (intrinsicToCV I).1 (intrinsicToCV I).2.1
        (intrinsicToCV I).2.2).focal_x = I.focal_x ∧
    (cvToIntrinsic (intrinsicToCV I).1 (intrinsicToCV I).2.1
        (intrinsicToCV I).2.2).focal_y = I.focal_y ∧
    |((cvToIntrinsic (intrinsicToCV I).1 (intrinsicToCV I).2.1
        (intrinsicToCV I).2.2).center_x : ℚ) - (I.center_x : ℚ)| ≤ 1 / 2 ∧
    |((cvToIntrinsic (intrinsicToCV I).1 (intrinsicToCV I).2.1
        (intrinsicToCV I).2.2).center_y : ℚ) - (I.center_y : ℚ)| ≤ 1 / 2 := by
  refine ⟨rfl, rfl, rfl, ?_, ?_⟩
  · show |((roundToNat (I.center_x : ℚ) : ℚ)) - (I.center_x : ℚ)| ≤ 1 / 2
    rw [roundToNat_natCast]
    simp
  · show |((roundToNat (I.center_y : ℚ) : ℚ)) - (I.center_y : ℚ)| ≤ 1 / 2
    rw [roundToNat_natCast]
    simp

/-- Witness for C6 on an intrinsic record with fractional focal lengths. -/
theorem intrinsic_cv_roundtrip_witness :
    (intrinsicToCV cvIntrinsics).1 =
      ⟨cvIntrinsics.focal_x, 0, (cvIntrinsics.center_x : ℚ), 0,
        cvIntrinsics.focal_y, (cvIntrinsics.center_y : ℚ), 0, 0, 1⟩ ∧
    (cvToIntrinsic (intrinsicToCV cvIntrinsics).1
        (intrinsicToCV cvIntrinsics).2.1
        (intrinsicToCV cvIntrinsics).2.2).focal_x = cvIntrinsics.focal_x ∧
    (cvToIntrinsic (intrinsicToCV cvIntrinsics).1
        (intrinsicToCV cvIntrinsics).2.1
        (intrinsicToCV cvIntrinsics).2.2).focal_y = cvIntrinsics.focal_y ∧
    |((cvToIntrinsic (intrinsicToCV cvIntrinsics).1
        (intrinsicToCV cvIntrinsics).2.1
        (intrinsicToCV cvIntrinsics).2.2).center_x : ℚ) -
      (cvIntrinsics.center_x : ℚ)| ≤ 1 / 2 ∧
    |((cvToIntrinsic (intrinsicToCV cvIntrinsics).1
        (intrinsicToCV cvIntrinsics).2.1
        (intrinsicToCV cvIntrinsics).2.2).center_y : ℚ) -
      (cvIntrinsics.center_y : ℚ)| ≤ 1 / 2 :=
  intrinsic_cv_roundtrip cvIntrinsics (by decide) (by decide)

/-- C2: the boolean `fieldToImg` overload reports an invalid position
exactly when the camera-frame depth is at most zero or the projected pixel
falls outside `[0, img_width) × [0, img_height)`; for a point strictly
behind the camera it still writes the pixel of the symmetric point
reflected through the optical center, not a sentinel. -/
theorem fieldToImg_validity (p : Vec3q) (c : CameraMetaInformation) :
    ((fieldToImgValid p c).2 = false ↔
      (fieldToCamera p c.pose).z ≤ 0 ∨
        ¬(0 ≤ (fieldToImgValid p c).1.x ∧
          (fieldToImgValid p c).1.x < (c.camera_parameters.img_width : ℚ) ∧
          0 ≤ (fieldToImgValid p c).1.y ∧
          (fieldToImgValid p c).1.y <
            (c.camera_parameters.img_height : ℚ))) ∧
    ((fieldToCamera p c.pose).z < 0 →
      (fieldToImgValid p c).1 =
        project c.camera_parameters
          ⟨-(fieldToCamera p c.pose).x, -(fieldToCamera p c.pose).y,
            -(fieldToCamera p c.pose).z⟩) := by
  constructor
  · have h2 : (fieldToImgValid p c).2 =
        (decide (0 < (fieldToCamera p c.pose).z) &&
          insideImg c.camera_parameters (fieldToImgValid p c).1) := rfl
    rw [h2, Bool.and_eq_false_iff]
    have hz : (decide (0 < (fieldToCamera p c.pose).z) = false) ↔
        (fieldToCamera p c.pose).z ≤ 0 := by
      simp [not_lt]
    have hin : (insideImg c.camera_parameters (fieldToImgValid p c).1
          = false) ↔
        ¬(0 ≤ (fieldToImgValid p c).1.x ∧
          (fieldToImgValid p c).1.x < (c.camera_parameters.img_width : ℚ) ∧
          0 ≤ (fieldToImgValid p c).1.y ∧
          (fieldToImgValid p c).1.y <
            (c.camera_parameters.img_height : ℚ)) := by
      rw [← Bool.not_eq_true]
      simp [insideImg, and_assoc]
    rw [hz, hin]
  · intro hz
    show distort c.camera_parameters _ _ = project c.camera_parameters _
    unfold project
    rw [show (Vec3q.mk (-(fieldToCamera p c.pose).x)
        (-(fieldToCamera p c.pose).y) (-(fieldToCamera p c.pose).z)).x =
        -(fieldToCamera p c.pose).x from rfl]
    rw [show (Vec3q.mk (-(fieldToCamera p c.pose).x)
        (-(fieldToCamera p c.pose).y) (-(fieldToCamera p c.pose).z)).y =
        -(fieldToCamera p c.pose).y from rfl]
    rw [show (Vec3q.mk (-(fieldToCamera p c.pose).x)
        (-(fieldToCamera p c.pose).y) (-(fieldToCamera p c.pose).z)).z =
        -(fieldToCamera p c.pose).z from rfl]
    rw [neg_div_neg_eq, neg_div_neg_eq]

/-- Witness for C2: the fixture point 5 units behind the camera is flagged
invalid, yet its written pixel is that of its reflection through the
optical center. -/
theorem fieldToImg_validity_witness :
    (fieldToCamera behindPoint projCamera.pose).z < 0 ∧
    (fieldToImgValid behindPoint projCamera).2 = false ∧
    (fieldToImgValid behindPoint projCamera).1 =
      project projCamera.camera_parameters
        ⟨-(fieldToCamera behindPoint projCamera.pose).x,
         -(fieldToCamera behindPoint projCamera.pose).y,
         -(fieldToCamera behindPoint projCamera.pose).z⟩ :=
  ⟨by norm_num [fieldToCamera, Mat3q.apply, behindPoint, projCamera,
     projIntrinsics],
   (fieldToImg_validity behindPoint projCamera).1.mpr
     (Or.inl (by norm_num [fieldToCamera, Mat3q.apply, behindPoint,
       projCamera, projIntrinsics])),
   (fieldToImg_validity behindPoint projCamera).2
     (by norm_num [fieldToCamera, Mat3q.apply, behindPoint, projCamera,
       projIntrinsics])⟩

/-- C10: the two `fieldToImg` overloads agree on the projected pixel: the
pixel the plain overload returns is exactly the one the boolean overload
writes into `img_pos`; the boolean overload only adds the validity flag. -/
theorem fieldToImg_overloads_agree (p : Vec3q) (c : CameraMetaInformation) :
    (fieldToImgValid p c).1 = fieldToImg p c := rfl

/-- C5: `getAffineFromProtobuf` decodes a 3-element rotation field by the
Rodrigues exponential map and a 4-element one by quaternion-to-matrix
conversion in the order `qw, qx, qy, qz`, copying the translation in both
cases, and fails with `MalformedPoseError` for every other rotation
length. -/
theorem getAffineFromProtobuf_spec (pose : Pose3D ℚ) :
    (∀ rx ry rz, pose.rotation = [rx, ry, rz] →
      getAffineFromProtobuf pose =
        Except.ok (rodrigues rx ry rz, protoTranslation pose)) ∧
    (∀ qw qx qy qz, pose.rotation = [qw, qx, qy, qz] →
      getAffineFromProtobuf pose =
        Except.ok (quatToMatrix qw qx qy qz, protoTranslation pose)) ∧
    (pose.rotation.length ≠ 3 → pose.rotation.length ≠ 4 →
      getAffineFromProtobuf pose =
        Except.error UtilsError.malformedPose) := by
  refine ⟨?_, ?_, ?_⟩
  · intro rx ry rz h
    unfold getAffineFromProtobuf
    rw [h]
  · intro qw qx qy qz h
    unfold getAffineFromProtobuf
    rw [h]
  · intro h3 h4
    rcases hr : pose.rotation with _ | ⟨a, _ | ⟨b, _ | ⟨c, _ | ⟨d, _ | ⟨e, rest⟩⟩⟩⟩⟩
    · simp [getAffineFromProtobuf, hr]
    · simp [getAffineFromProtobuf, hr]
    · simp [getAffineFromProtobuf, hr]
    · exact absurd (by rw [hr]; rfl) h3
    · exact absurd (by rw [hr]; rfl) h4
    · simp [getAffineFromProtobuf, hr]

/-- Witness for C5: a zero Rodrigues vector decodes through the Rodrigues
branch, an identity quaternion through the quaternion branch, and a
2-element rotation fails as malformed. -/
theorem getAffineFromProtobuf_spec_witness :
    getAffineFromProtobuf ⟨[0, 0, 0], [1, 2, 3]⟩ =
      Except.ok (rodrigues 0 0 0, protoTranslation ⟨[0, 0, 0], [1, 2, 3]⟩) ∧
    getAffineFromProtobuf ⟨[1, 0, 0, 0], [0, 0, 0]⟩ =
      Except.ok (quatToMatrix 1 0 0 0,
        protoTranslation ⟨[1, 0, 0, 0], [0, 0, 0]⟩) ∧
    getAffineFromProtobuf ⟨[1, 2], [0, 0, 0]⟩ =
      Except.error UtilsError.malformedPose :=
  ⟨(getAffineFromProtobuf_spec ⟨[0, 0, 0], [1, 2, 3]⟩).1 0 0 0 rfl,
   (getAffineFromProtobuf_spec ⟨[1, 0, 0, 0], [0, 0, 0]⟩).2.1 1 0 0 0 rfl,
   (getAffineFromProtobuf_spec ⟨[1, 2], [0, 0, 0]⟩).2.2 (by decide)
     (by decide)⟩

/-- C8: `setProtobufFromAffine` always encodes the rotation as the
3-element Rodrigues rotation vector — never the 4-element quaternion
form — and copies the 3-element translation. -/
theorem setProtobufFromAffine_rodrigues (m : Mat3r) (t : Vec3r) :
    (setProtobufFromAffine m t).rotation.length = 3 ∧
    (setProtobufFromAffine m t).rotation.length ≠ 4 ∧
    (setProtobufFromAffine m t).translation.length = 3 := by
  refine ⟨rfl, ?_, rfl⟩
  intro h
  simp [setProtobufFromAffine] at h

end HlCommunication
